import Mathlib

/-!
# Verification of the simple-governance pallet

A shallow embedding of `pallets/simple-governance/src/lib.rs`: the storage
items (`Proposals`, `Votes`, `NextProposalId`, `VoteTallies`), the three
dispatchable calls (`propose`, `vote`, `close_proposal`), the per-block
auto-close sweep (the pallet's block-initialization hook) and the genesis
builder.  Storage maps are modelled as association lists whose list order
stands for the storage backend's stable iteration order; `u32`/`u64`
arithmetic is modelled on `Nat` with explicit saturation at `2^32 - 1`
resp. `2^64 - 1`, matching the source's `saturating_add`.
-/

namespace SimpleGov

/-- `u32::MAX`, the saturation bound of proposal ids and tally counters. -/
def UMAX32 : Nat := 2 ^ 32 - 1

/-- `u64::MAX`, the saturation bound of block numbers (mock runtime's
`BlockNumber = u64`). -/
def UMAX64 : Nat := 2 ^ 64 - 1

/-- `u32::saturating_add` on the `Nat` model. -/
def satAdd32 (a b : Nat) : Nat := min (a + b) UMAX32

/-- `u64::saturating_add` on the `Nat` model. -/
def satAdd64 (a b : Nat) : Nat := min (a + b) UMAX64

/-- The pallet `Config` constants: `MaxDescriptionLength`,
`DefaultVotingPeriod`, `MaxProposalsPerBlock`. -/
structure GovConfig where
  maxDescriptionLength : Nat
  defaultVotingPeriod : Nat
  maxProposalsPerBlock : Nat
deriving DecidableEq, Repr

/-- The mock runtime's configuration (`mock.rs`): 256 / 100 / 10. -/
def mockCfg : GovConfig := ⟨256, 100, 10⟩

/-- `ProposalInfo` from the source.  Account ids are `Nat` (the mock's
`u64`), descriptions are byte lists. -/
structure ProposalInfo where
  proposer : Nat
  description : List Nat
  start_block : Nat
  end_block : Nat
  is_closed : Bool
deriving DecidableEq, Repr

/-- `VoteTally` from the source: `for_votes` / `against_votes`, both `u32`. -/
structure VoteTally where
  for_votes : Nat
  against_votes : Nat
deriving DecidableEq, Repr

/-- `VoteTally::default()`: both counters zero. -/
def VoteTally.zero : VoteTally := ⟨0, 0⟩

/-- `Error<T>` from the source. -/
inductive GovError where
  | DescriptionTooLong
  | ProposalNotFound
  | VotingPeriodNotEnded
  | AlreadyVoted
  | ProposalClosed
  | VotingPeriodEnded
deriving DecidableEq, Repr

/-- `Event<T>` from the source. -/
inductive GovEvent where
  | ProposalCreated (proposal_id : Nat) (proposer : Nat)
      (description : List Nat) (end_block : Nat)
  | Voted (proposal_id : Nat) (voter : Nat) (vote : Bool)
  | ProposalClosed (proposal_id : Nat) (for_votes : Nat) (against_votes : Nat)
deriving DecidableEq, Repr

/-! ## Association-list storage primitives

`alookup`/`ainsert`/`amodify` model `StorageMap::get`, `::insert` and
`::mutate`.  `ainsert` overwrites in place when the key exists and appends
otherwise, so list order is a stable iteration order. -/

/-- Storage-map read (`get`). -/
def alookup {α β : Type} [DecidableEq α] (k : α) : List (α × β) → Option β
  | [] => none
  | (k', v) :: t => if k = k' then some v else alookup k t

/-- Storage-map write (`insert`): overwrite in place, else append. -/
def ainsert {α β : Type} [DecidableEq α] (k : α) (v : β) : List (α × β) → List (α × β)
  | [] => [(k, v)]
  | (k', v') :: t => if k = k' then (k, v) :: t else (k', v') :: ainsert k v t

/-- Storage-map `mutate` whose closure only acts on `Some`: update the
entry at `k` if present, otherwise leave the map unchanged. -/
def amodify {α β : Type} [DecidableEq α] (k : α) (f : β → β) : List (α × β) → List (α × β)
  | [] => []
  | (k', v) :: t => if k = k' then (k', f v) :: t else (k', v) :: amodify k f t

/-- The pallet's whole storage: `Proposals`, `Votes` (double map, keyed by
the pair), `NextProposalId`, `VoteTallies`. -/
structure GovState where
  proposals : List (Nat × ProposalInfo)
  votes : List ((Nat × Nat) × Bool)
  nextProposalId : Nat
  voteTallies : List (Nat × VoteTally)
deriving DecidableEq, Repr

/-- The empty storage every runtime starts from (`ValueQuery` gives
`NextProposalId = 0`). -/
def initState : GovState := ⟨[], [], 0, []⟩

/-! ## The three dispatchable calls

Each call takes the current block height (read from `frame_system`), the
authenticated caller (`ensure_signed`) and the call arguments, and returns
the post state, the `DispatchResult` error component, and the deposited
events — mirroring the source's control flow: all `ensure!` checks run
before any storage write. -/

/-- `propose` (lib.rs lines 199–245). -/
def propose (cfg : GovConfig) (blk who : Nat) (description : List Nat)
    (s : GovState) : GovState × Option GovError × List GovEvent :=
  if description.length > cfg.maxDescriptionLength then
    (s, some .DescriptionTooLong, [])
  else if description.length > 256 then
    (s, some .DescriptionTooLong, [])
  else
    let proposal_id := s.nextProposalId
    let end_block := satAdd64 blk cfg.defaultVotingPeriod
    let p : ProposalInfo :=
      { proposer := who, description := description, start_block := blk,
        end_block := end_block, is_closed := false }
    ({ proposals := ainsert proposal_id p s.proposals,
       votes := s.votes,
       nextProposalId := satAdd32 s.nextProposalId 1,
       voteTallies := ainsert proposal_id VoteTally.zero s.voteTallies },
     none,
     [.ProposalCreated proposal_id who description end_block])

/-- The tally bump inside `vote`'s `VoteTallies::mutate`. -/
def bumpTally (choice : Bool) (t : VoteTally) : VoteTally :=
  if choice then { t with for_votes := satAdd32 t.for_votes 1 }
  else { t with against_votes := satAdd32 t.against_votes 1 }

/-- `vote` (lib.rs lines 257–303). -/
def vote (cfg : GovConfig) (blk who proposal_id : Nat) (choice : Bool)
    (s : GovState) : GovState × Option GovError × List GovEvent :=
  match alookup proposal_id s.proposals with
  | none => (s, some .ProposalNotFound, [])
  | some p =>
    if p.is_closed then (s, some .ProposalClosed, [])
    else if blk > p.end_block then (s, some .VotingPeriodEnded, [])
    else if (alookup (proposal_id, who) s.votes).isSome then
      (s, some .AlreadyVoted, [])
    else
      ({ s with
          votes := ainsert (proposal_id, who) choice s.votes,
          voteTallies := amodify proposal_id (bumpTally choice) s.voteTallies },
       none,
       [.Voted proposal_id who choice])

/-- `close_proposal` (lib.rs lines 314–346). -/
def close_proposal (cfg : GovConfig) (blk who proposal_id : Nat)
    (s : GovState) : GovState × Option GovError × List GovEvent :=
  match alookup proposal_id s.proposals with
  | none => (s, some .ProposalNotFound, [])
  | some p =>
    if p.is_closed then (s, some .ProposalClosed, [])
    else if blk > p.end_block then
      let p' := { p with is_closed := true }
      let tally := (alookup proposal_id s.voteTallies).getD VoteTally.zero
      ({ s with proposals := ainsert proposal_id p' s.proposals },
       none,
       [.ProposalClosed proposal_id tally.for_votes tally.against_votes])
    else (s, some .VotingPeriodNotEnded, [])

/-! ## The per-block sweep -/

/-- The loop body of the block-initialization hook (lib.rs lines 352–384):
walk the proposal store in its stable order, threading `closed_count`;
`break` as soon as the cap is reached, close each still-open expired entry
and emit its `ProposalClosed` event. -/
def sweepList (cfg : GovConfig) (n : Nat) (tallies : List (Nat × VoteTally)) :
    List (Nat × ProposalInfo) → Nat → List (Nat × ProposalInfo) × List GovEvent
  | [], _ => ([], [])
  | (proposal_id, p) :: rest, closed_count =>
    if closed_count ≥ cfg.maxProposalsPerBlock then ((proposal_id, p) :: rest, [])
    else if p.is_closed = false ∧ n > p.end_block then
      let p' := { p with is_closed := true }
      let tally := (alookup proposal_id tallies).getD VoteTally.zero
      let r := sweepList cfg n tallies rest (closed_count + 1)
      ((proposal_id, p') :: r.1,
       .ProposalClosed proposal_id tally.for_votes tally.against_votes :: r.2)
    else
      let r := sweepList cfg n tallies rest closed_count
      ((proposal_id, p) :: r.1, r.2)

/-- `on_initialize(n)`, the pallet's hook at the start of block `n`
(weight accounting elided — it is an external-runtime concern). -/
def onInitHook (cfg : GovConfig) (n : Nat) (s : GovState) :
    GovState × List GovEvent :=
  let r := sweepList cfg n s.voteTallies s.proposals 0
  ({ s with proposals := r.1 }, r.2)

/-! ## Genesis build -/

/-- One iteration of `GenesisConfig::build` (lib.rs lines 436–467):
`none` models the `panic!`/`expect` abort on an over-long description. -/
def seedOne (cfg : GovConfig) (acc : Option (GovState × List GovEvent))
    (item : Nat × List Nat) : Option (GovState × List GovEvent) :=
  match acc with
  | none => none
  | some (s, evs) =>
    if item.2.length > cfg.maxDescriptionLength then none
    else if item.2.length > 256 then none
    else
      let proposal_id := s.nextProposalId
      let end_block := satAdd64 0 cfg.defaultVotingPeriod
      let p : ProposalInfo :=
        { proposer := item.1, description := item.2, start_block := 0,
          end_block := end_block, is_closed := false }
      some ({ proposals := ainsert proposal_id p s.proposals,
              votes := s.votes,
              nextProposalId := satAdd32 s.nextProposalId 1,
              voteTallies := ainsert proposal_id VoteTally.zero s.voteTallies },
            evs ++ [.ProposalCreated proposal_id item.1 item.2 end_block])

/-- `GenesisConfig::build`: fold `seedOne` over the configured list,
starting from empty storage at block 0. -/
def genesisBuild (cfg : GovConfig) (items : List (Nat × List Nat)) :
    Option (GovState × List GovEvent) :=
  items.foldl (seedOne cfg) (some (initState, []))

/-! ## Reachability

A state is reachable when it arises from empty storage by successful
calls and sweep invocations at non-decreasing block heights.  Genesis
seeding is covered: a successful `seedOne` step effects exactly what a
successful `propose` at block 0 effects, so every genesis-built state is
reachable through `propose_step`s at height 0 (`seedOne_as_propose`
below).  Failing calls leave the state untouched (claim C6) and so never
leave the reachable set. -/
inductive Reach (cfg : GovConfig) : Nat → GovState → Prop where
  | init : Reach cfg 0 initState
  | propose_step {n m who d s s' evs} : Reach cfg n s → n ≤ m →
      propose cfg m who d s = (s', none, evs) → Reach cfg m s'
  | vote_step {n m who pid c s s' evs} : Reach cfg n s → n ≤ m →
      vote cfg m who pid c s = (s', none, evs) → Reach cfg m s'
  | close_step {n m who pid s s' evs} : Reach cfg n s → n ≤ m →
      close_proposal cfg m who pid s = (s', none, evs) → Reach cfg m s'
  | sweep_step {n m s s' evs} : Reach cfg n s → n ≤ m →
      onInitHook cfg m s = (s', evs) → Reach cfg m s'

/-- A successful genesis seed step is exactly a successful `propose` at
block height 0 (state and event coincide). -/
theorem seedOne_as_propose (cfg : GovConfig) (s : GovState) (evs : List GovEvent)
    (item : Nat × List Nat) (s' : GovState) (evs' : List GovEvent)
    (h : seedOne cfg (some (s, evs)) item = some (s', evs')) :
    propose cfg 0 item.1 item.2 s = (s', none, evs'.drop evs.length) := by
  by_cases h1 : item.2.length > cfg.maxDescriptionLength
  · simp [seedOne, h1] at h
  · by_cases h2 : item.2.length > 256
    · simp [seedOne, h1, h2] at h
    · simp [seedOne, h1, h2] at h
      simp [propose, h1, h2, ← h.1, ← h.2]

/-! ## Association-list lemmas -/

theorem alookup_ainsert_self {α β : Type} [DecidableEq α] (k : α) (v : β)
    (l : List (α × β)) : alookup k (ainsert k v l) = some v := by
  induction l with
  | nil => simp [ainsert, alookup]
  | cons h t ih =>
    by_cases hk : k = h.1
    · simp [ainsert, alookup, hk]
    · simp [ainsert, alookup, hk, ih]

theorem alookup_ainsert_ne {α β : Type} [DecidableEq α] {k k' : α} (v : β)
    (l : List (α × β)) (hne : k ≠ k') :
    alookup k (ainsert k' v l) = alookup k l := by
  induction l with
  | nil => simp [ainsert, alookup, hne]
  | cons h t ih =>
    by_cases hk : k' = h.1
    · have hk2 : k ≠ h.1 := hk ▸ hne
      simp [ainsert, alookup, hk, hne, hk2]
    · by_cases hk2 : k = h.1 <;> simp [ainsert, alookup, hk, hk2, ih]

theorem amodify_of_absent {α β : Type} [DecidableEq α] {k : α} (f : β → β)
    {l : List (α × β)} (h : alookup k l = none) : amodify k f l = l := by
  induction l with
  | nil => simp [amodify]
  | cons hd t ih =>
    by_cases hk : k = hd.1
    · simp [alookup, hk] at h
    · simp [alookup, hk] at h
      simp [amodify, hk, ih h]

theorem alookup_amodify_self {α β : Type} [DecidableEq α] (k : α) (f : β → β)
    (l : List (α × β)) : alookup k (amodify k f l) = (alookup k l).map f := by
  induction l with
  | nil => simp [amodify, alookup]
  | cons h t ih =>
    by_cases hk : k = h.1
    · simp [amodify, alookup, hk]
    · simp [amodify, alookup, hk, ih]

theorem alookup_amodify_ne {α β : Type} [DecidableEq α] {k k' : α} (f : β → β)
    (l : List (α × β)) (hne : k ≠ k') :
    alookup k (amodify k' f l) = alookup k l := by
  induction l with
  | nil => simp [amodify, alookup]
  | cons h t ih =>
    by_cases hk : k' = h.1
    · have hk2 : k ≠ h.1 := hk ▸ hne
      simp [amodify, alookup, hk, hne, hk2]
    · by_cases hk2 : k = h.1 <;> simp [amodify, alookup, hk, hk2, ih]

theorem ainsert_of_absent {α β : Type} [DecidableEq α] {k : α} (v : β)
    {l : List (α × β)} (h : alookup k l = none) : ainsert k v l = l ++ [(k, v)] := by
  induction l with
  | nil => simp [ainsert]
  | cons hd t ih =>
    by_cases hk : k = hd.1
    · simp [alookup, hk] at h
    · simp [alookup, hk] at h
      simp [ainsert, hk, ih h]

theorem alookup_mem {α β : Type} [DecidableEq α] {k : α} {v : β}
    {l : List (α × β)} (h : alookup k l = some v) : (k, v) ∈ l := by
  induction l with
  | nil => simp [alookup] at h
  | cons hd t ih =>
    by_cases hk : k = hd.1
    · simp [alookup, hk] at h
      simp [hk, ← h]
    · simp [alookup, hk] at h
      exact List.mem_cons_of_mem _ (ih h)

theorem alookup_eq_none {α β : Type} [DecidableEq α] {k : α}
    {l : List (α × β)} (h : ∀ v : β, (k, v) ∉ l) : alookup k l = none := by
  induction l with
  | nil => simp [alookup]
  | cons hd t ih =>
    by_cases hk : k = hd.1
    · exact absurd (by simp [hk]) (h hd.2)
    · simp [alookup, hk]
      exact ih fun v hv => h v (List.mem_cons_of_mem _ hv)

/-! ## Claim C4: voting-window boundaries (concrete scenario) -/

/-- The state after `propose` at block 1 under the mock configuration. -/
def c4State : GovState := (propose mockCfg 1 5 [65] initState).1

/-- C4: a proposal created at block 1 with voting period 100 has
`end_block = 101`; `vote` at block 101 succeeds and at block 102 fails
with `VotingPeriodEnded`; `close_proposal` at block 101 fails with
`VotingPeriodNotEnded` and at block 102 succeeds: voting is allowed up to
and including `end_block`, closing requires strictly more. -/
theorem C4_window_boundaries :
    (alookup 0 c4State.proposals).map ProposalInfo.end_block = some 101 ∧
    (vote mockCfg 101 7 0 true c4State).2.1 = none ∧
    (vote mockCfg 102 7 0 true c4State).2.1 = some GovError.VotingPeriodEnded ∧
    (close_proposal mockCfg 101 7 0 c4State).2.1 = some GovError.VotingPeriodNotEnded ∧
    (close_proposal mockCfg 102 7 0 c4State).2.1 = none := by
  refine ⟨?_, ?_, ?_, ?_, ?_⟩ <;> decide

/-! ## Claim C2: order of `vote`'s validation checks -/

/-- C2: `vote` evaluates its checks in the order `ProposalNotFound`,
`ProposalClosed`, `VotingPeriodEnded`, `AlreadyVoted`; when several
conditions hold at once the reported error is the first in this order
(each conjunct fixes only the earlier checks, so the later conditions are
arbitrary), and when no check fails the call succeeds. -/
theorem C2_vote_check_order (cfg : GovConfig) (blk who pid : Nat) (c : Bool)
    (s : GovState) :
    (alookup pid s.proposals = none →
      (vote cfg blk who pid c s).2.1 = some GovError.ProposalNotFound) ∧
    (∀ p, alookup pid s.proposals = some p → p.is_closed = true →
      (vote cfg blk who pid c s).2.1 = some GovError.ProposalClosed) ∧
    (∀ p, alookup pid s.proposals = some p → p.is_closed = false →
      blk > p.end_block →
      (vote cfg blk who pid c s).2.1 = some GovError.VotingPeriodEnded) ∧
    (∀ p, alookup pid s.proposals = some p → p.is_closed = false →
      blk ≤ p.end_block → (alookup (pid, who) s.votes).isSome = true →
      (vote cfg blk who pid c s).2.1 = some GovError.AlreadyVoted) ∧
    (∀ p, alookup pid s.proposals = some p → p.is_closed = false →
      blk ≤ p.end_block → (alookup (pid, who) s.votes).isSome = false →
      (vote cfg blk who pid c s).2.1 = none) := by
  refine ⟨?_, ?_, ?_, ?_, ?_⟩
  · intro h; simp [vote, h]
  · intro p hp hc; simp [vote, hp, hc]
  · intro p hp hc hb; simp [vote, hp, hc, hb]
  · intro p hp hc hb hv; simp [vote, hp, hc, Nat.not_lt.mpr hb, hv]
  · intro p hp hc hb hv; simp [vote, hp, hc, Nat.not_lt.mpr hb, hv]

/-- A state in which proposal 0 is simultaneously closed, past its voting
window, and already voted on by account 2: the reported error is
`ProposalClosed`, the first of the three in check order. -/
theorem C2_vote_check_order_witness :
    (vote mockCfg 10 2 0 true
      ⟨[(0, ⟨1, [65], 0, 5, true⟩)], [((0, 2), true)], 1, [(0, ⟨1, 0⟩)]⟩).2.1 =
      some GovError.ProposalClosed :=
  (C2_vote_check_order mockCfg 10 2 0 true _).2.1 ⟨1, [65], 0, 5, true⟩
    (by decide) (by decide)

/-! ## Claim C3: id assignment and counter increment -/

/-- C3: every successful `propose` emits `ProposalCreated` carrying the
prior `NextProposalId` as the new proposal's id and leaves
`NextProposalId` at its prior value saturating-plus-one; every successful
genesis seed step does the same. -/
theorem C3_id_assignment (cfg : GovConfig) (blk who : Nat) (d : List Nat)
    (s : GovState) :
    (∀ s' evs, propose cfg blk who d s = (s', none, evs) →
      evs = [GovEvent.ProposalCreated s.nextProposalId who d
               (satAdd64 blk cfg.defaultVotingPeriod)] ∧
      s'.nextProposalId = satAdd32 s.nextProposalId 1) ∧
    (∀ (g : GovState) gevs item g' gevs',
      seedOne cfg (some (g, gevs)) item = some (g', gevs') →
      gevs' = gevs ++ [GovEvent.ProposalCreated g.nextProposalId item.1 item.2
               (satAdd64 0 cfg.defaultVotingPeriod)] ∧
      g'.nextProposalId = satAdd32 g.nextProposalId 1) := by
  constructor
  · intro s' evs h
    by_cases h1 : d.length > cfg.maxDescriptionLength
    · simp [propose, h1] at h
    · by_cases h2 : d.length > 256 <;> simp [propose, h1, h2] at h
      obtain ⟨hs, hev⟩ := h
      subst hs
      exact ⟨hev.symm, rfl⟩
  · intro g gevs item g' gevs' h
    by_cases h1 : item.2.length > cfg.maxDescriptionLength
    · simp [seedOne, h1] at h
    · by_cases h2 : item.2.length > 256 <;> simp [seedOne, h1, h2] at h
      obtain ⟨hs, hev⟩ := h
      subst hs
      exact ⟨hev.symm, rfl⟩

/-- C3 instantiated on a concrete run: the first proposal of the mock
runtime gets id 0 and the counter moves to 1. -/
theorem C3_id_assignment_witness :
    (propose mockCfg 1 5 [65] initState).2.2 =
      [GovEvent.ProposalCreated 0 5 [65] 101] ∧
    (propose mockCfg 1 5 [65] initState).1.nextProposalId = 1 := by
  have h := (C3_id_assignment mockCfg 1 5 [65] initState).1
    (propose mockCfg 1 5 [65] initState).1
    (propose mockCfg 1 5 [65] initState).2.2 (by decide)
  exact ⟨by rw [h.1]; decide, by rw [h.2]; decide⟩

/-! ## Claim C6: validation precedes mutation -/

/-- C6: whenever `propose`, `vote` or `close_proposal` returns an error,
the storage is exactly as before and no event is deposited; and a
successful `propose` performs exactly one proposal-store write, one
tally write, one counter increment, and one event. -/
theorem C6_all_or_nothing (cfg : GovConfig) (blk who pid : Nat) (d : List Nat)
    (c : Bool) (s : GovState) :
    (∀ e s' evs, propose cfg blk who d s = (s', some e, evs) →
      s' = s ∧ evs = []) ∧
    (∀ e s' evs, vote cfg blk who pid c s = (s', some e, evs) →
      s' = s ∧ evs = []) ∧
    (∀ e s' evs, close_proposal cfg blk who pid s = (s', some e, evs) →
      s' = s ∧ evs = []) ∧
    (∀ s' evs, propose cfg blk who d s = (s', none, evs) →
      s'.proposals = ainsert s.nextProposalId
        ⟨who, d, blk, satAdd64 blk cfg.defaultVotingPeriod, false⟩ s.proposals ∧
      s'.voteTallies = ainsert s.nextProposalId VoteTally.zero s.voteTallies ∧
      s'.votes = s.votes ∧
      s'.nextProposalId = satAdd32 s.nextProposalId 1 ∧
      evs = [GovEvent.ProposalCreated s.nextProposalId who d
               (satAdd64 blk cfg.defaultVotingPeriod)]) := by
  refine ⟨?_, ?_, ?_, ?_⟩
  · intro e s' evs h
    by_cases h1 : d.length > cfg.maxDescriptionLength
    · simp [propose, h1] at h
      exact ⟨h.1.symm, h.2.2⟩
    · by_cases h2 : d.length > 256
      · simp [propose, h1, h2] at h
        exact ⟨h.1.symm, h.2.2⟩
      · simp [propose, h1, h2] at h
  · intro e s' evs h
    cases hl : alookup pid s.proposals with
    | none =>
      simp [vote, hl] at h
      exact ⟨h.1.symm, h.2.2⟩
    | some p =>
      by_cases hc : p.is_closed
      · simp [vote, hl, hc] at h
        exact ⟨h.1.symm, h.2.2⟩
      · by_cases hb : blk > p.end_block
        · simp [vote, hl, hc, hb] at h
          exact ⟨h.1.symm, h.2.2⟩
        · by_cases hv : (alookup (pid, who) s.votes).isSome
          · simp [vote, hl, hc, hb, hv] at h
            exact ⟨h.1.symm, h.2.2⟩
          · simp [vote, hl, hc, hb, hv] at h
  · intro e s' evs h
    cases hl : alookup pid s.proposals with
    | none =>
      simp [close_proposal, hl] at h
      exact ⟨h.1.symm, h.2.2⟩
    | some p =>
      by_cases hc : p.is_closed
      · simp [close_proposal, hl, hc] at h
        exact ⟨h.1.symm, h.2.2⟩
      · by_cases hb : blk > p.end_block
        · simp [close_proposal, hl, hc, hb] at h
        · simp [close_proposal, hl, hc, hb] at h
          exact ⟨h.1.symm, h.2.2⟩
  · intro s' evs h
    by_cases h1 : d.length > cfg.maxDescriptionLength
    · simp [propose, h1] at h
    · by_cases h2 : d.length > 256
      · simp [propose, h1, h2] at h
      · simp [propose, h1, h2] at h
        obtain ⟨hs, hev⟩ := h
        subst hs
        exact ⟨rfl, rfl, rfl, rfl, hev.symm⟩

/-- C6 applied concretely: a `vote` on a missing proposal leaves the
empty state untouched with no events, and the mock runtime's first
`propose` writes exactly the expected four storage pieces. -/
theorem C6_all_or_nothing_witness :
    ((vote mockCfg 0 1 99 true initState).1 = initState ∧
      (vote mockCfg 0 1 99 true initState).2.2 = []) ∧
    ((propose mockCfg 1 5 [65] initState).1.proposals =
        ainsert 0 ⟨5, [65], 1, 101, false⟩ ([] : List (Nat × ProposalInfo)) ∧
      (propose mockCfg 1 5 [65] initState).1.voteTallies =
        ainsert 0 VoteTally.zero ([] : List (Nat × VoteTally)) ∧
      (propose mockCfg 1 5 [65] initState).1.votes = [] ∧
      (propose mockCfg 1 5 [65] initState).1.nextProposalId = 1 ∧
      (propose mockCfg 1 5 [65] initState).2.2 =
        [GovEvent.ProposalCreated 0 5 [65] 101]) := by
  constructor
  · exact (C6_all_or_nothing mockCfg 0 1 99 [] true initState).2.1
      GovError.ProposalNotFound (vote mockCfg 0 1 99 true initState).1
      (vote mockCfg 0 1 99 true initState).2.2 (by decide)
  · exact (C6_all_or_nothing mockCfg 1 5 0 [65] true initState).2.2.2
      (propose mockCfg 1 5 [65] initState).1
      (propose mockCfg 1 5 [65] initState).2.2 (by decide)

/-! ## Claim C8: description-length validation -/

set_option maxRecDepth 40000 in
/-- C8: `propose` reports `DescriptionTooLong` exactly when the
description is longer than the configured `MaxDescriptionLength` or
longer than the fixed 256-byte storage bound; under the mock bounds
(both 256) a 256-byte description is accepted as proposal 0 while a
257-byte one is rejected; at genesis an over-long description aborts
initialization (`panic`, modelled as `none`). -/
theorem C8_description_length (cfg : GovConfig) (blk who : Nat) (d : List Nat)
    (s : GovState) :
    ((propose cfg blk who d s).2.1 = some GovError.DescriptionTooLong ↔
      d.length > cfg.maxDescriptionLength ∨ d.length > 256) ∧
    (propose mockCfg 1 5 (List.replicate 256 0) initState).2.1 = none ∧
    (propose mockCfg 1 5 (List.replicate 256 0) initState).2.2 =
      [GovEvent.ProposalCreated 0 5 (List.replicate 256 0) 101] ∧
    (propose mockCfg 1 5 (List.replicate 257 0) initState).2.1 =
      some GovError.DescriptionTooLong ∧
    genesisBuild mockCfg [(5, List.replicate 257 0)] = none := by
  refine ⟨?_, by decide, by decide, by decide, by decide⟩
  by_cases h1 : d.length > cfg.maxDescriptionLength
  · simp [propose, h1]
  · by_cases h2 : d.length > 256 <;> simp [propose, h1, h2]

/-! ## Claim C10: voting with a missing tally entry -/

/-- C10: when the proposal exists, is open, is inside its voting window
and the caller has not voted, but its tally entry is absent, `vote` still
succeeds — the vote is recorded and `Voted` is emitted — while the tally
`mutate` is a no-op and no tally entry is created. -/
theorem C10_vote_without_tally (cfg : GovConfig) (blk who pid : Nat) (c : Bool)
    (s : GovState) (p : ProposalInfo)
    (hp : alookup pid s.proposals = some p) (hc : p.is_closed = false)
    (hb : blk ≤ p.end_block) (hv : alookup (pid, who) s.votes = none)
    (ht : alookup pid s.voteTallies = none) :
    vote cfg blk who pid c s =
      ({ s with votes := ainsert (pid, who) c s.votes }, none,
        [GovEvent.Voted pid who c]) ∧
    (vote cfg blk who pid c s).1.voteTallies = s.voteTallies ∧
    alookup pid (vote cfg blk who pid c s).1.voteTallies = none := by
  have hmod : amodify pid (bumpTally c) s.voteTallies = s.voteTallies :=
    amodify_of_absent _ ht
  refine ⟨?_, ?_, ?_⟩ <;>
    simp [vote, hp, hc, Nat.not_lt.mpr hb, hv, hmod, ht]

/-- C10 applied concretely: a state holding open proposal 0 and no tally
entry accepts account 2's vote and still has no tally entry. -/
theorem C10_vote_without_tally_witness :
    vote mockCfg 3 2 0 true ⟨[(0, ⟨1, [65], 0, 5, false⟩)], [], 1, []⟩ =
      (⟨[(0, ⟨1, [65], 0, 5, false⟩)], [((0, 2), true)], 1, []⟩, none,
        [GovEvent.Voted 0 2 true]) ∧
    alookup 0 (vote mockCfg 3 2 0 true
      ⟨[(0, ⟨1, [65], 0, 5, false⟩)], [], 1, []⟩).1.voteTallies = none := by
  have h := C10_vote_without_tally mockCfg 3 2 0 true
    ⟨[(0, ⟨1, [65], 0, 5, false⟩)], [], 1, []⟩ ⟨1, [65], 0, 5, false⟩
    (by decide) (by decide) (by decide) (by decide) (by decide)
  exact ⟨h.1, h.2.2⟩

/-! ## Claim C5: the bounded auto-close sweep -/

/-- An entry the sweep may close: still open and strictly past its
`end_block` at height `n`. -/
def eligAt (n : Nat) (e : Nat × ProposalInfo) : Bool :=
  decide (e.2.is_closed = false ∧ n > e.2.end_block)

/-- Number of open, expired entries at height `n`. -/
def eligCount (n : Nat) (l : List (Nat × ProposalInfo)) : Nat :=
  (l.filter (eligAt n)).length

/-- Iterated sweep invocations at height `n` (state component only). -/
def sweepIter (cfg : GovConfig) (n : Nat) : Nat → GovState → GovState
  | 0, s => s
  | k + 1, s => sweepIter cfg n k (onInitHook cfg n s).1

theorem sweepList_break (cfg : GovConfig) (n : Nat)
    (t : List (Nat × VoteTally)) (l : List (Nat × ProposalInfo)) (c : Nat)
    (h : cfg.maxProposalsPerBlock ≤ c) : sweepList cfg n t l c = (l, []) := by
  cases l with
  | nil => simp [sweepList]
  | cons hd rest =>
    obtain ⟨pid, p⟩ := hd
    simp [sweepList, h]

theorem sweepList_events_length (cfg : GovConfig) (n : Nat)
    (t : List (Nat × VoteTally)) :
    ∀ (l : List (Nat × ProposalInfo)) (c : Nat),
      (sweepList cfg n t l c).2.length ≤ cfg.maxProposalsPerBlock - c := by
  intro l
  induction l with
  | nil => intro c; simp [sweepList]
  | cons hd rest ih =>
    intro c
    obtain ⟨pid, p⟩ := hd
    by_cases hbrk : c ≥ cfg.maxProposalsPerBlock
    · simp [sweepList, hbrk]
    · by_cases helig : p.is_closed = false ∧ n > p.end_block
      · have h1 := ih (c + 1)
        simp only [sweepList, if_neg hbrk, if_pos helig, List.length_cons]
        omega
      · have h1 := ih c
        simp only [sweepList, if_neg hbrk, if_neg helig]
        omega

theorem sweepList_lookup (cfg : GovConfig) (n : Nat)
    (t : List (Nat × VoteTally)) :
    ∀ (l : List (Nat × ProposalInfo)) (c k : Nat),
      (alookup k (sweepList cfg n t l c).1 = alookup k l) ∨
      (∃ p, alookup k l = some p ∧ p.is_closed = false ∧ n > p.end_block ∧
        alookup k (sweepList cfg n t l c).1 = some { p with is_closed := true } ∧
        GovEvent.ProposalClosed k ((alookup k t).getD VoteTally.zero).for_votes
            ((alookup k t).getD VoteTally.zero).against_votes
          ∈ (sweepList cfg n t l c).2) := by
  intro l
  induction l with
  | nil => intro c k; left; rfl
  | cons hd rest ih =>
    intro c k
    obtain ⟨pid, p⟩ := hd
    by_cases hbrk : c ≥ cfg.maxProposalsPerBlock
    · left; rw [sweepList_break cfg n t _ c hbrk]
    · by_cases helig : p.is_closed = false ∧ n > p.end_block
      · by_cases hk : k = pid
        · right
          refine ⟨p, ?_, helig.1, helig.2, ?_, ?_⟩ <;>
            simp [sweepList, hbrk, helig, alookup, hk]
        · rcases ih (c + 1) k with h | ⟨q, hq1, hq2, hq3, hq4, hq5⟩
          · left
            simp only [sweepList, if_neg hbrk, if_pos helig]
            simp [alookup, hk, h]
          · right
            refine ⟨q, ?_, hq2, hq3, ?_, ?_⟩ <;>
              simp [sweepList, hbrk, helig, alookup, hk, hq1, hq4, hq5]
      · by_cases hk : k = pid
        · left
          simp [sweepList, hbrk, helig, alookup, hk]
        · rcases ih c k with h | ⟨q, hq1, hq2, hq3, hq4, hq5⟩
          · left
            simp only [sweepList, if_neg hbrk, if_neg helig]
            simp [alookup, hk, h]
          · right
            refine ⟨q, ?_, hq2, hq3, ?_, ?_⟩ <;>
              simp [sweepList, hbrk, helig, alookup, hk, hq1, hq4, hq5]

theorem sweepList_elig_conservation (cfg : GovConfig) (n : Nat)
    (t : List (Nat × VoteTally)) :
    ∀ (l : List (Nat × ProposalInfo)) (c : Nat),
      eligCount n (sweepList cfg n t l c).1 + (sweepList cfg n t l c).2.length =
        eligCount n l := by
  intro l
  induction l with
  | nil => intro c; simp [sweepList, eligCount]
  | cons hd rest ih =>
    intro c
    obtain ⟨pid, p⟩ := hd
    by_cases hbrk : c ≥ cfg.maxProposalsPerBlock
    · rw [sweepList_break cfg n t _ c hbrk]; simp
    · by_cases helig : p.is_closed = false ∧ n > p.end_block
      · have hel : eligAt n (pid, p) = true := by simp [eligAt, helig]
        have hel2 : eligAt n (pid, { p with is_closed := true }) = false := by
          simp [eligAt]
        have h1 := ih (c + 1)
        simp only [sweepList, if_neg hbrk, if_pos helig]
        simp only [eligCount, List.filter_cons, hel, hel2, if_pos, if_neg,
          Bool.false_eq_true, List.length_cons, ite_true, ite_false] at h1 ⊢
        omega
      · have hel : eligAt n (pid, p) = false := by
          simp only [eligAt, decide_eq_true_eq]
          simpa using helig
        have h1 := ih c
        simp only [sweepList, if_neg hbrk, if_neg helig]
        simp only [eligCount, List.filter_cons, hel, Bool.false_eq_true,
          List.length_cons, ite_true, ite_false] at h1 ⊢
        omega

theorem eligCount_cons_true {n : Nat} {e : Nat × ProposalInfo}
    (l : List (Nat × ProposalInfo)) (h : eligAt n e = true) :
    eligCount n (e :: l) = eligCount n l + 1 := by
  simp [eligCount, List.filter_cons, h]

theorem eligCount_cons_false {n : Nat} {e : Nat × ProposalInfo}
    (l : List (Nat × ProposalInfo)) (h : eligAt n e = false) :
    eligCount n (e :: l) = eligCount n l := by
  simp [eligCount, List.filter_cons, h]

theorem sweepList_events_count (cfg : GovConfig) (n : Nat)
    (t : List (Nat × VoteTally)) :
    ∀ (l : List (Nat × ProposalInfo)) (c : Nat), c < cfg.maxProposalsPerBlock →
      (sweepList cfg n t l c).2.length =
        min (cfg.maxProposalsPerBlock - c) (eligCount n l) := by
  intro l
  induction l with
  | nil => intro c _; simp [sweepList, eligCount]
  | cons hd rest ih =>
    intro c hc
    obtain ⟨pid, p⟩ := hd
    have hbrk : ¬ c ≥ cfg.maxProposalsPerBlock := by omega
    by_cases helig : p.is_closed = false ∧ n > p.end_block
    · have hel : eligAt n (pid, p) = true := by
        simp [eligAt, helig]
      rw [eligCount_cons_true rest hel]
      simp only [sweepList, if_neg hbrk, if_pos helig, List.length_cons]
      by_cases hc2 : c + 1 < cfg.maxProposalsPerBlock
      · have h1 := ih (c + 1) hc2
        omega
      · have h1 := sweepList_break cfg n t rest (c + 1) (by omega)
        simp [h1]
        omega
    · have hel : eligAt n (pid, p) = false := by
        simp only [eligAt, decide_eq_true_eq]
        simpa using helig
      have h1 := ih c hc
      rw [eligCount_cons_false rest hel]
      simp only [sweepList, if_neg hbrk, if_neg helig]
      omega

theorem sweepIter_elig_le (cfg : GovConfig) (n : Nat)
    (hcap : 1 ≤ cfg.maxProposalsPerBlock) :
    ∀ (k : Nat) (s : GovState),
      eligCount n (sweepIter cfg n k s).proposals ≤
        eligCount n s.proposals - k := by
  intro k
  induction k with
  | zero => intro s; simp [sweepIter]
  | succ k ih =>
    intro s
    have hstep := ih (onInitHook cfg n s).1
    have hcons := sweepList_elig_conservation cfg n s.voteTallies s.proposals 0
    have hcnt := sweepList_events_count cfg n s.voteTallies s.proposals 0
      (by omega)
    have hprop : (onInitHook cfg n s).1.proposals =
        (sweepList cfg n s.voteTallies s.proposals 0).1 := rfl
    simp only [sweepIter]
    rw [hprop] at hstep
    omega

theorem eligCount_zero_closed (n : Nat) (l : List (Nat × ProposalInfo))
    (h : eligCount n l = 0) :
    ∀ pid p, alookup pid l = some p → n > p.end_block → p.is_closed = true := by
  intro pid p hl hend
  by_contra hc
  have hopen : p.is_closed = false := by
    cases hcl : p.is_closed
    · rfl
    · exact absurd hcl hc
  have hmem : (pid, p) ∈ l.filter (eligAt n) :=
    List.mem_filter.mpr ⟨alookup_mem hl, by simp [eligAt, hopen, hend]⟩
  have : l.filter (eligAt n) = [] := List.length_eq_zero.mp h
  rw [this] at hmem
  exact absurd hmem (List.not_mem_nil _)

/-- C5: one sweep invocation closes at most `MaxProposalsPerBlock`
proposals (the event count equals the number of open→closed transitions,
by the conservation conjunct); every entry it changes was open and
strictly past its `end_block`, is changed only by setting `is_closed`,
and gets the same `ProposalClosed` notification `close` would emit; and
with a positive cap, repeating the sweep closes every eligible proposal
(none is left over forever). -/
theorem C5_sweep_bounded (cfg : GovConfig) (n : Nat) (s : GovState) :
    (onInitHook cfg n s).2.length ≤ cfg.maxProposalsPerBlock ∧
    eligCount n (onInitHook cfg n s).1.proposals + (onInitHook cfg n s).2.length =
      eligCount n s.proposals ∧
    (∀ pid,
      (alookup pid (onInitHook cfg n s).1.proposals = alookup pid s.proposals) ∨
      (∃ p, alookup pid s.proposals = some p ∧ p.is_closed = false ∧
        n > p.end_block ∧
        alookup pid (onInitHook cfg n s).1.proposals =
          some { p with is_closed := true } ∧
        GovEvent.ProposalClosed pid
            ((alookup pid s.voteTallies).getD VoteTally.zero).for_votes
            ((alookup pid s.voteTallies).getD VoteTally.zero).against_votes
          ∈ (onInitHook cfg n s).2)) ∧
    (1 ≤ cfg.maxProposalsPerBlock →
      ∀ pid p,
        alookup pid (sweepIter cfg n (eligCount n s.proposals) s).proposals =
          some p →
        n > p.end_block → p.is_closed = true) := by
  refine ⟨?_, ?_, ?_, ?_⟩
  · have h := sweepList_events_length cfg n s.voteTallies s.proposals 0
    simpa [onInitHook] using (le_trans h (by omega))
  · exact sweepList_elig_conservation cfg n s.voteTallies s.proposals 0
  · intro pid
    exact sweepList_lookup cfg n s.voteTallies s.proposals 0 pid
  · intro hcap pid p hl hend
    have h1 := sweepIter_elig_le cfg n hcap (eligCount n s.proposals) s
    have h2 : eligCount n (sweepIter cfg n (eligCount n s.proposals) s).proposals = 0 := by
      omega
    exact eligCount_zero_closed n _ h2 pid p hl hend

/-- C5 applied concretely: with two proposals expired at block 102 under
the mock cap of 10, both close in one invocation (two events, none
eligible afterwards), and the repeated sweep leaves proposal 0 closed. -/
theorem C5_sweep_bounded_witness :
    (onInitHook mockCfg 102
      ⟨[(0, ⟨1, [65], 1, 101, false⟩), (1, ⟨2, [66], 1, 101, false⟩)], [], 2,
        [(0, ⟨3, 1⟩), (1, ⟨0, 2⟩)]⟩).2.length ≤ 10 ∧
    (⟨5, [65], 1, 101, true⟩ : ProposalInfo).is_closed = true := by
  constructor
  · exact (C5_sweep_bounded mockCfg 102 _).1
  · exact (C5_sweep_bounded mockCfg 102
      ⟨[(0, ⟨5, [65], 1, 101, false⟩)], [], 1, []⟩).2.2.2 (by decide) 0
      ⟨5, [65], 1, 101, true⟩ (by decide) (by decide)

/-! ## Vote counting

`voterCount pid vs` counts the Vote Ledger entries for proposal `pid`;
since the ledger's keys are kept duplicate-free (invariant below), it is
the number of distinct voter identities with a recorded vote. -/

/-- Entries voting *for* proposal `pid`. -/
def forCount (pid : Nat) (vs : List ((Nat × Nat) × Bool)) : Nat :=
  (vs.filter fun e => decide (e.1.1 = pid ∧ e.2 = true)).length

/-- Entries voting *against* proposal `pid`. -/
def againstCount (pid : Nat) (vs : List ((Nat × Nat) × Bool)) : Nat :=
  (vs.filter fun e => decide (e.1.1 = pid ∧ e.2 = false)).length

/-- All vote entries on proposal `pid`. -/
def voterCount (pid : Nat) (vs : List ((Nat × Nat) × Bool)) : Nat :=
  (vs.filter fun e => decide (e.1.1 = pid)).length

theorem voterCount_split (pid : Nat) (vs : List ((Nat × Nat) × Bool)) :
    voterCount pid vs = forCount pid vs + againstCount pid vs := by
  induction vs with
  | nil => rfl
  | cons e t ih =>
    by_cases h1 : e.1.1 = pid
    · cases hc : e.2 <;>
        simp [voterCount, forCount, againstCount, List.filter_cons, h1, hc]
          at ih ⊢ <;> omega
    · simp [voterCount, forCount, againstCount, List.filter_cons, h1]
        at ih ⊢
      omega

theorem counts_append (pid : Nat) (vs : List ((Nat × Nat) × Bool))
    (e : (Nat × Nat) × Bool) :
    forCount pid (vs ++ [e]) =
      forCount pid vs + (if e.1.1 = pid ∧ e.2 = true then 1 else 0) ∧
    againstCount pid (vs ++ [e]) =
      againstCount pid vs + (if e.1.1 = pid ∧ e.2 = false then 1 else 0) ∧
    voterCount pid (vs ++ [e]) =
      voterCount pid vs + (if e.1.1 = pid then 1 else 0) := by
  refine ⟨?_, ?_, ?_⟩
  · by_cases h : e.1.1 = pid ∧ e.2 = true <;>
      simp [forCount, List.filter_append, h]
  · by_cases h : e.1.1 = pid ∧ e.2 = false <;>
      simp [againstCount, List.filter_append, h]
  · by_cases h : e.1.1 = pid <;>
      simp [voterCount, List.filter_append, h]

theorem counts_zero_of_absent (pid : Nat) (vs : List ((Nat × Nat) × Bool))
    (h : ∀ e ∈ vs, e.1.1 ≠ pid) :
    forCount pid vs = 0 ∧ againstCount pid vs = 0 ∧ voterCount pid vs = 0 := by
  refine ⟨?_, ?_, ?_⟩ <;>
    simp only [forCount, againstCount, voterCount, List.length_eq_zero,
      List.filter_eq_nil] <;>
    intro a ha <;> simp <;> intro hpid <;> exact absurd hpid (h a ha)

theorem alookup_isSome_of_mem {α β : Type} [DecidableEq α] {k : α} {v : β}
    {l : List (α × β)} (h : (k, v) ∈ l) : (alookup k l).isSome = true := by
  induction l with
  | nil => simp at h
  | cons hd t ih =>
    rcases List.mem_cons.mp h with h1 | h1
    · simp [alookup, ← h1]
    · by_cases hk : k = hd.1 <;> simp [alookup, hk, ih h1]

/-- Distinct keys restricted to one proposal give distinct voters. -/
theorem nodup_voters (pid : Nat) (vs : List ((Nat × Nat) × Bool))
    (h : (vs.map Prod.fst).Nodup) :
    ((vs.filter fun e => decide (e.1.1 = pid)).map fun e => e.1.2).Nodup := by
  induction vs with
  | nil => simp
  | cons e t ih =>
    simp only [List.map_cons, List.nodup_cons] at h
    by_cases h1 : e.1.1 = pid
    · simp only [List.filter_cons]
      rw [if_pos (show decide (e.1.1 = pid) = true by simp [h1])]
      simp only [List.map_cons, List.nodup_cons]
      refine ⟨?_, ih h.2⟩
      intro hmem
      obtain ⟨e', he'1, he'2⟩ := List.mem_map.mp hmem
      have he'3 := List.mem_filter.mp he'1
      have : e'.1 = e.1 := by
        have hp : e'.1.1 = pid := of_decide_eq_true he'3.2
        have : e'.1 = (pid, e.1.2) := Prod.ext hp he'2
        rw [this, ← h1]
      exact h.1 (this ▸ List.mem_map_of_mem Prod.fst he'3.1)
    · simp only [List.filter_cons]
      rw [if_neg (show ¬ decide (e.1.1 = pid) = true by simp [h1])]
      exact ih h.2

/-! ## Success characterizations of the three calls -/

theorem propose_success_eq {cfg : GovConfig} {blk who : Nat} {d : List Nat}
    {s s' : GovState} {evs : List GovEvent}
    (h : propose cfg blk who d s = (s', none, evs)) :
    s' = { proposals := ainsert s.nextProposalId
             ⟨who, d, blk, satAdd64 blk cfg.defaultVotingPeriod, false⟩
             s.proposals,
           votes := s.votes,
           nextProposalId := satAdd32 s.nextProposalId 1,
           voteTallies := ainsert s.nextProposalId VoteTally.zero
             s.voteTallies } ∧
    evs = [GovEvent.ProposalCreated s.nextProposalId who d
             (satAdd64 blk cfg.defaultVotingPeriod)] := by
  by_cases h1 : d.length > cfg.maxDescriptionLength
  · simp [propose, h1] at h
  · by_cases h2 : d.length > 256
    · simp [propose, h1, h2] at h
    · simp [propose, h1, h2] at h
      exact ⟨h.1.symm, h.2.symm⟩

theorem vote_success_eq {cfg : GovConfig} {blk who pid : Nat} {c : Bool}
    {s s' : GovState} {evs : List GovEvent}
    (h : vote cfg blk who pid c s = (s', none, evs)) :
    ∃ p, alookup pid s.proposals = some p ∧ p.is_closed = false ∧
      blk ≤ p.end_block ∧ alookup (pid, who) s.votes = none ∧
      s' = { s with
          votes := ainsert (pid, who) c s.votes,
          voteTallies := amodify pid (bumpTally c) s.voteTallies } ∧
      evs = [GovEvent.Voted pid who c] := by
  cases hl : alookup pid s.proposals with
  | none => simp [vote, hl] at h
  | some p =>
    by_cases hc : p.is_closed
    · simp [vote, hl, hc] at h
    · by_cases hb : blk > p.end_block
      · simp [vote, hl, hc, hb] at h
      · by_cases hv : (alookup (pid, who) s.votes).isSome
        · simp [vote, hl, hc, hb, hv] at h
        · simp [vote, hl, hc, hb, hv] at h
          refine ⟨p, rfl, by simpa using hc, by omega, ?_, h.1.symm, h.2.symm⟩
          cases hvv : alookup (pid, who) s.votes
          · rfl
          · rw [hvv] at hv
            simp at hv

theorem close_success_eq {cfg : GovConfig} {blk who pid : Nat}
    {s s' : GovState} {evs : List GovEvent}
    (h : close_proposal cfg blk who pid s = (s', none, evs)) :
    ∃ p, alookup pid s.proposals = some p ∧ p.is_closed = false ∧
      blk > p.end_block ∧
      s' = { s with proposals :=
               ainsert pid { p with is_closed := true } s.proposals } ∧
      evs = [GovEvent.ProposalClosed pid
               ((alookup pid s.voteTallies).getD VoteTally.zero).for_votes
               ((alookup pid s.voteTallies).getD VoteTally.zero).against_votes] := by
  cases hl : alookup pid s.proposals with
  | none => simp [close_proposal, hl] at h
  | some p =>
    by_cases hc : p.is_closed
    · simp [close_proposal, hl, hc] at h
    · by_cases hb : blk > p.end_block
      · simp [close_proposal, hl, hc, hb] at h
        exact ⟨p, rfl, by simpa using hc, hb, h.1.symm, h.2.symm⟩
      · simp [close_proposal, hl, hc, hb] at h

/-! ## The reachable-state invariant (unsaturated counter) -/

theorem UMAX32_eq : UMAX32 = 4294967295 := by norm_num [UMAX32]

theorem satAdd32_one_of_lt {x : Nat} (h : x < UMAX32) : satAdd32 x 1 = x + 1 := by
  rw [UMAX32_eq] at h
  simp only [satAdd32, UMAX32_eq]
  omega

theorem satAdd32_one_lt {x : Nat} (h : satAdd32 x 1 < UMAX32) : x < UMAX32 := by
  simp only [satAdd32, UMAX32_eq] at h ⊢
  omega

theorem satAdd32_min_succ (x : Nat) :
    satAdd32 (min x UMAX32) 1 = min (x + 1) UMAX32 := by
  simp only [satAdd32, UMAX32_eq]
  omega

/-- The inductive invariant of reachable states while `NextProposalId`
has not saturated: every stored proposal / tally / vote id lies below
`NextProposalId`, the Vote Ledger's keys are duplicate-free, every
stored proposal has a tally entry, and each tally counter equals the
(`u32`-saturated) number of matching Vote Ledger entries. -/
def Inv (s : GovState) : Prop :=
  (∀ pid p, alookup pid s.proposals = some p → pid < s.nextProposalId) ∧
  (∀ pid t, alookup pid s.voteTallies = some t → pid < s.nextProposalId) ∧
  (∀ pid who c, ((pid, who), c) ∈ s.votes → pid < s.nextProposalId) ∧
  (s.votes.map Prod.fst).Nodup ∧
  (∀ pid p, alookup pid s.proposals = some p →
    (alookup pid s.voteTallies).isSome = true) ∧
  (∀ pid t, alookup pid s.voteTallies = some t →
    t.for_votes = min (forCount pid s.votes) UMAX32 ∧
    t.against_votes = min (againstCount pid s.votes) UMAX32)

theorem inv_init : Inv initState := by
  refine ⟨?_, ?_, ?_, ?_, ?_, ?_⟩ <;> simp [initState, alookup]

theorem inv_propose {cfg : GovConfig} {blk who : Nat} {d : List Nat}
    {s s' : GovState} {evs : List GovEvent} (hs : Inv s)
    (hlt : s.nextProposalId < UMAX32)
    (h : propose cfg blk who d s = (s', none, evs)) : Inv s' := by
  obtain ⟨hseq, -⟩ := propose_success_eq h
  subst hseq
  obtain ⟨i1, i2, i3, i4, i5, i6⟩ := hs
  have hN := satAdd32_one_of_lt hlt
  unfold Inv
  dsimp only
  rw [hN]
  refine ⟨?_, ?_, ?_, i4, ?_, ?_⟩
  · intro pid p hp
    by_cases hk : pid = s.nextProposalId
    · omega
    · rw [alookup_ainsert_ne _ _ hk] at hp
      have := i1 pid p hp
      omega
  · intro pid t ht
    by_cases hk : pid = s.nextProposalId
    · omega
    · rw [alookup_ainsert_ne _ _ hk] at ht
      have := i2 pid t ht
      omega
  · intro pid who' c hm
    have := i3 pid who' c hm
    omega
  · intro pid p hp
    by_cases hk : pid = s.nextProposalId
    · subst hk
      rw [alookup_ainsert_self]
      rfl
    · rw [alookup_ainsert_ne _ _ hk] at hp ⊢
      exact i5 pid p hp
  · intro pid t ht
    by_cases hk : pid = s.nextProposalId
    · subst hk
      rw [alookup_ainsert_self] at ht
      have hz : ∀ e ∈ s.votes, e.1.1 ≠ s.nextProposalId := by
        intro e he hpe
        have := i3 e.1.1 e.1.2 e.2 he
        omega
      obtain ⟨hf, ha, -⟩ := counts_zero_of_absent _ _ hz
      have ht2 := Option.some.inj ht
      rw [← ht2, hf, ha]
      exact ⟨by simp [VoteTally.zero], by simp [VoteTally.zero]⟩
    · rw [alookup_ainsert_ne _ _ hk] at ht
      exact i6 pid t ht

theorem inv_vote {cfg : GovConfig} {blk who pid : Nat} {c : Bool}
    {s s' : GovState} {evs : List GovEvent} (hs : Inv s)
    (h : vote cfg blk who pid c s = (s', none, evs)) : Inv s' := by
  obtain ⟨p, hp, hopen, hblk, hnov, hseq, -⟩ := vote_success_eq h
  subst hseq
  obtain ⟨i1, i2, i3, i4, i5, i6⟩ := hs
  have hvapp : ainsert (pid, who) c s.votes = s.votes ++ [((pid, who), c)] :=
    ainsert_of_absent _ hnov
  have hpidlt : pid < s.nextProposalId := i1 pid p hp
  unfold Inv
  dsimp only
  rw [hvapp]
  refine ⟨i1, ?_, ?_, ?_, ?_, ?_⟩
  · intro pid' t' ht'
    by_cases hk : pid' = pid
    · subst hk; exact hpidlt
    · rw [alookup_amodify_ne _ _ hk] at ht'
      exact i2 pid' t' ht'
  · intro pid' who' c' hm
    rcases List.mem_append.mp hm with h1 | h1
    · exact i3 pid' who' c' h1
    · simp only [List.mem_singleton, Prod.mk.injEq] at h1
      rw [h1.1.1]
      exact hpidlt
  · rw [List.map_append]
    refine List.Nodup.append i4 (by simp) ?_
    intro a ha hb
    simp only [List.map_cons, List.map_nil, List.mem_singleton] at hb
    subst hb
    obtain ⟨e, he, hefst⟩ := List.mem_map.mp ha
    have hm2 : ((pid, who), e.2) ∈ s.votes := by
      rw [← hefst]
      exact he
    have hsome := alookup_isSome_of_mem hm2
    rw [hnov] at hsome
    simp at hsome
  · intro pid' p' hp'
    by_cases hk : pid' = pid
    · subst hk
      rw [alookup_amodify_self]
      have h2 := i5 pid' p' hp'
      cases halt : alookup pid' s.voteTallies
      · rw [halt] at h2; simp at h2
      · simp
    · rw [alookup_amodify_ne _ _ hk]
      exact i5 pid' p' hp'
  · intro pid' t' ht'
    by_cases hk : pid' = pid
    · subst hk
      rw [alookup_amodify_self] at ht'
      cases halt : alookup pid' s.voteTallies with
      | none => rw [halt] at ht'; simp at ht'
      | some t0 =>
        rw [halt] at ht'
        simp only [Option.map_some'] at ht'
        have ht2 := Option.some.inj ht'
        obtain ⟨hf0, ha0⟩ := i6 pid' t0 halt
        obtain ⟨hfa, haa, -⟩ := counts_append pid' s.votes ((pid', who), c)
        rw [← ht2]
        cases c
        · constructor
          · show t0.for_votes = _
            rw [hfa]
            simpa using hf0
          · show satAdd32 t0.against_votes 1 = _
            rw [haa, ha0]
            simpa using satAdd32_min_succ (againstCount pid' s.votes)
        · constructor
          · show satAdd32 t0.for_votes 1 = _
            rw [hfa, hf0]
            simpa using satAdd32_min_succ (forCount pid' s.votes)
          · show t0.against_votes = _
            rw [haa]
            simpa using ha0
    · rw [alookup_amodify_ne _ _ hk] at ht'
      obtain ⟨hf0, ha0⟩ := i6 pid' t' ht'
      obtain ⟨hfa, haa, -⟩ := counts_append pid' s.votes ((pid, who), c)
      have hne : ¬ ((pid, who), c).1.1 = pid' := fun hx => hk (by
        dsimp only at hx
        rw [hx])
      constructor
      · rw [hfa, if_neg (by dsimp only; intro hx; exact hne hx.1)]
        simpa using hf0
      · rw [haa, if_neg (by dsimp only; intro hx; exact hne hx.1)]
        simpa using ha0

theorem inv_close {cfg : GovConfig} {blk who pid : Nat}
    {s s' : GovState} {evs : List GovEvent} (hs : Inv s)
    (h : close_proposal cfg blk who pid s = (s', none, evs)) : Inv s' := by
  obtain ⟨p, hp, -, -, hseq, -⟩ := close_success_eq h
  subst hseq
  obtain ⟨i1, i2, i3, i4, i5, i6⟩ := hs
  unfold Inv
  dsimp only
  refine ⟨?_, i2, i3, i4, ?_, i6⟩
  · intro pid' p' hp'
    by_cases hk : pid' = pid
    · subst hk
      exact i1 pid' p hp
    · rw [alookup_ainsert_ne _ _ hk] at hp'
      exact i1 pid' p' hp'
  · intro pid' p' hp'
    by_cases hk : pid' = pid
    · subst hk
      exact i5 pid' p hp
    · rw [alookup_ainsert_ne _ _ hk] at hp'
      exact i5 pid' p' hp'

theorem inv_sweep {cfg : GovConfig} {n : Nat} {s : GovState} (hs : Inv s) :
    Inv (onInitHook cfg n s).1 := by
  obtain ⟨i1, i2, i3, i4, i5, i6⟩ := hs
  unfold Inv onInitHook
  dsimp only
  refine ⟨?_, i2, i3, i4, ?_, i6⟩
  · intro pid p hp
    rcases sweepList_lookup cfg n s.voteTallies s.proposals 0 pid with
      heq | ⟨q, hq1, -, -, hq4, -⟩
    · rw [heq] at hp
      exact i1 pid p hp
    · exact i1 pid q hq1
  · intro pid p hp
    rcases sweepList_lookup cfg n s.voteTallies s.proposals 0 pid with
      heq | ⟨q, hq1, -, -, hq4, -⟩
    · rw [heq] at hp
      exact i5 pid p hp
    · exact i5 pid q hq1

/-- Every reachable state whose id counter has not saturated satisfies
the invariant. -/
theorem reach_inv {cfg : GovConfig} {n : Nat} {s : GovState}
    (hr : Reach cfg n s) : s.nextProposalId < UMAX32 → Inv s := by
  induction hr with
  | init => exact fun _ => inv_init
  | propose_step hr hle heq ih =>
    intro hlt
    obtain ⟨hseq, -⟩ := propose_success_eq heq
    subst hseq
    have hlt0 := satAdd32_one_lt hlt
    exact inv_propose (ih hlt0) hlt0 heq
  | vote_step hr hle heq ih =>
    intro hlt
    obtain ⟨p, -, -, -, -, hseq, -⟩ := vote_success_eq heq
    subst hseq
    exact inv_vote (ih hlt) heq
  | close_step hr hle heq ih =>
    intro hlt
    obtain ⟨p, -, -, -, hseq, -⟩ := close_success_eq heq
    subst hseq
    exact inv_close (ih hlt) heq
  | sweep_step hr hle heq ih =>
    rename_i n1 m1 s1 s2 evs1
    intro hlt
    have h2 : s2 = (onInitHook cfg m1 s1).1 := by rw [heq]
    subst h2
    exact inv_sweep (ih hlt)

/-! ## Saturation of the id counter

`NextProposalId` is a `u32` bumped with `saturating_add`: after `2^32 - 1`
creations it sticks at `2^32 - 1`, so the next `propose` re-assigns that
id, overwriting the stored proposal and resetting its tally while old
votes linger.  `proposeN k` is the state after `k` successful `propose`
calls at block 0 under the mock configuration. -/

theorem satAdd32_umax : satAdd32 UMAX32 1 = UMAX32 := by
  simp only [satAdd32, UMAX32_eq]
  omega

theorem mock_propose_ok (blk who x : Nat) (s : GovState) :
    propose mockCfg blk who [x] s =
      (⟨ainsert s.nextProposalId ⟨who, [x], blk, satAdd64 blk 100, false⟩
          s.proposals,
        s.votes, satAdd32 s.nextProposalId 1,
        ainsert s.nextProposalId VoteTally.zero s.voteTallies⟩,
       none,
       [GovEvent.ProposalCreated s.nextProposalId who [x]
          (satAdd64 blk 100)]) := by
  simp [propose, mockCfg]

/-- `mock_propose_ok` split into per-field equations, so that states like
`proposeN (2^32)` can be rewritten propositionally without the kernel
ever reducing them. -/
theorem mock_propose_fields (blk who x : Nat) (s : GovState) :
    (propose mockCfg blk who [x] s).1.proposals =
      ainsert s.nextProposalId ⟨who, [x], blk, satAdd64 blk 100, false⟩
        s.proposals ∧
    (propose mockCfg blk who [x] s).1.votes = s.votes ∧
    (propose mockCfg blk who [x] s).1.nextProposalId =
      satAdd32 s.nextProposalId 1 ∧
    (propose mockCfg blk who [x] s).1.voteTallies =
      ainsert s.nextProposalId VoteTally.zero s.voteTallies ∧
    (propose mockCfg blk who [x] s).2.1 = none ∧
    (propose mockCfg blk who [x] s).2.2 =
      [GovEvent.ProposalCreated s.nextProposalId who [x] (satAdd64 blk 100)] := by
  rw [mock_propose_ok]
  exact ⟨rfl, rfl, rfl, rfl, rfl, rfl⟩

def proposeN : Nat → GovState
  | 0 => initState
  | k + 1 => (propose mockCfg 0 5 [65] (proposeN k)).1

theorem proposeN_succ (k : Nat) :
    proposeN (k + 1) = (propose mockCfg 0 5 [65] (proposeN k)).1 := rfl

theorem proposeN_nextId (k : Nat) :
    (proposeN k).nextProposalId = min k UMAX32 := by
  induction k with
  | zero => simp [proposeN, initState]
  | succ k ih =>
    rw [proposeN_succ, (mock_propose_fields 0 5 65 (proposeN k)).2.2.1, ih,
      satAdd32_min_succ]

theorem proposeN_votes (k : Nat) : (proposeN k).votes = [] := by
  induction k with
  | zero => rfl
  | succ k ih =>
    rw [proposeN_succ, (mock_propose_fields 0 5 65 (proposeN k)).2.1]
    exact ih

theorem proposeN_reach (k : Nat) : Reach mockCfg 0 (proposeN k) := by
  induction k with
  | zero => exact Reach.init
  | succ k ih =>
    rw [proposeN_succ]
    exact Reach.propose_step ih (Nat.le_refl 0) (mock_propose_ok 0 5 65 (proposeN k))

/-- The state after `2^32` successful creations: the id counter has
saturated at `2^32 - 1` and proposal `2^32 - 1` has just been created. -/
def satState : GovState := proposeN (UMAX32 + 1)

theorem satState_eq :
    satState = (propose mockCfg 0 5 [65] (proposeN UMAX32)).1 := by
  simp only [satState]
  exact proposeN_succ UMAX32

theorem satState_fields :
    alookup UMAX32 satState.proposals = some ⟨5, [65], 0, 100, false⟩ ∧
    alookup UMAX32 satState.voteTallies = some VoteTally.zero ∧
    satState.votes = [] ∧
    satState.nextProposalId = UMAX32 := by
  have hA : (proposeN UMAX32).nextProposalId = UMAX32 := by
    rw [proposeN_nextId]
    exact Nat.min_self _
  have h64 : satAdd64 0 100 = 100 := by decide
  have hc := mock_propose_fields 0 5 65 (proposeN UMAX32)
  refine ⟨?_, ?_, ?_, ?_⟩
  · rw [satState_eq, hc.1, hA, h64]
    exact alookup_ainsert_self _ _ _
  · rw [satState_eq, hc.2.2.2.1, hA]
    exact alookup_ainsert_self _ _ _
  · rw [satState_eq, hc.2.1]
    exact proposeN_votes _
  · rw [satState_eq, hc.2.2.1, hA]
    exact satAdd32_umax

/-! ## Claim C7: id uniqueness -/

/-- C7 fails at saturation: from the empty state, successful creations
number `2^32` and `2^32 + 1` (consecutive `propose` calls of one
reachable run — `satState` is the state between them) are both assigned
id `2^32 - 1 = 4294967295`, and after the first of them `NextProposalId`
equals the assigned id rather than strictly exceeding it. -/
theorem C7_counterexample :
    Reach mockCfg 0 satState ∧
    satState = (propose mockCfg 0 5 [65] (proposeN UMAX32)).1 ∧
    (propose mockCfg 0 5 [65] (proposeN UMAX32)).2.1 = none ∧
    (propose mockCfg 0 5 [65] (proposeN UMAX32)).2.2 =
      [GovEvent.ProposalCreated UMAX32 5 [65] 100] ∧
    satState.nextProposalId = UMAX32 ∧
    (propose mockCfg 0 5 [65] satState).2.1 = none ∧
    (propose mockCfg 0 5 [65] satState).2.2 =
      [GovEvent.ProposalCreated UMAX32 5 [65] 100] := by
  have hA : (proposeN UMAX32).nextProposalId = UMAX32 := by
    rw [proposeN_nextId]
    exact Nat.min_self _
  have h64 : satAdd64 0 100 = 100 := by decide
  have hn := satState_fields.2.2.2
  have hc := mock_propose_fields 0 5 65 (proposeN UMAX32)
  have hc2 := mock_propose_fields 0 5 65 satState
  refine ⟨proposeN_reach (UMAX32 + 1), satState_eq, hc.2.2.2.2.1, ?_, hn,
    hc2.2.2.2.2.1, ?_⟩
  · rw [hc.2.2.2.2.2, hA, h64]
  · rw [hc2.2.2.2.2.2, hn, h64]

/-- C7 (amended): in every reachable state whose `NextProposalId` has
not yet saturated, `NextProposalId` strictly exceeds every proposal id
in the store (proposals are never deleted, so these are all ids ever
assigned), and in particular the id the next `propose` would assign is
not yet in use — no id is reused before saturation. -/
theorem C7_ids_monotone {cfg : GovConfig} {n : Nat} {s : GovState}
    (hr : Reach cfg n s) (hsat : s.nextProposalId < UMAX32) :
    (∀ pid p, alookup pid s.proposals = some p → pid < s.nextProposalId) ∧
    alookup s.nextProposalId s.proposals = none := by
  obtain ⟨i1, -, -, -, -, -⟩ := reach_inv hr hsat
  refine ⟨i1, ?_⟩
  apply alookup_eq_none
  intro p hp
  have h2 := alookup_isSome_of_mem hp
  cases hq : alookup s.nextProposalId s.proposals with
  | none => rw [hq] at h2; simp at h2
  | some q => exact absurd (i1 _ q hq) (lt_irrefl _)

/-- C7's amended statement applied to the one-proposal mock state. -/
theorem C7_ids_monotone_witness :
    (0 : Nat) < 1 ∧
    alookup 1 [(0, (⟨5, [65], 0, 100, false⟩ : ProposalInfo))] = none := by
  have h1 : propose mockCfg 0 5 [65] initState =
      (⟨[(0, ⟨5, [65], 0, 100, false⟩)], [], 1, [(0, ⟨0, 0⟩)]⟩, none,
       [GovEvent.ProposalCreated 0 5 [65] 100]) := by decide
  have hreach := Reach.propose_step Reach.init (Nat.le_refl 0) h1
  have h := C7_ids_monotone hreach (by decide)
  exact ⟨h.1 0 ⟨5, [65], 0, 100, false⟩ rfl, h.2⟩

/-! ## Claim C1: tallies count distinct voters -/

/-- The two steps of the C1 counterexample, proved over an arbitrary
state with the four properties `satState` has (working over a variable
state keeps every rewrite propositional): voting on proposal `2^32 - 1`
succeeds and bumps its tally, and a further `propose` — whose saturated
counter re-assigns id `2^32 - 1` — resets that tally to zero while the
vote entry stays. -/
theorem c1_chain (s : GovState)
    (hp : alookup UMAX32 s.proposals = some ⟨5, [65], 0, 100, false⟩)
    (ht : alookup UMAX32 s.voteTallies = some VoteTally.zero)
    (hv : s.votes = []) (hn : s.nextProposalId = UMAX32) :
    vote mockCfg 0 7 UMAX32 true s =
      (⟨s.proposals, [((UMAX32, 7), true)], s.nextProposalId,
        amodify UMAX32 (bumpTally true) s.voteTallies⟩, none,
       [GovEvent.Voted UMAX32 7 true]) ∧
    propose mockCfg 0 5 [65]
      (⟨s.proposals, [((UMAX32, 7), true)], s.nextProposalId,
        amodify UMAX32 (bumpTally true) s.voteTallies⟩ : GovState) =
      (⟨ainsert UMAX32 ⟨5, [65], 0, 100, false⟩ s.proposals,
        [((UMAX32, 7), true)], satAdd32 UMAX32 1,
        ainsert UMAX32 VoteTally.zero
          (amodify UMAX32 (bumpTally true) s.voteTallies)⟩, none,
       [GovEvent.ProposalCreated UMAX32 5 [65] 100]) ∧
    alookup UMAX32 (ainsert UMAX32 VoteTally.zero
        (amodify UMAX32 (bumpTally true) s.voteTallies)) =
      some VoteTally.zero := by
  have h64 : satAdd64 0 100 = 100 := by decide
  refine ⟨?_, ?_, alookup_ainsert_self _ _ _⟩
  · simp [vote, hp, hv, ainsert, alookup]
  · rw [mock_propose_ok]
    dsimp only
    rw [hn, h64]

/-- C1 fails at saturation: this reachable state (`satState` after a
vote on proposal `2^32 - 1` by account 7 and one more `propose`) carries
the tally `(0, 0)` for proposal `2^32 - 1` while its Vote Ledger —
the explicit list in the second component — records one distinct voter
on it, so `for_votes + against_votes = 0 ≠ 1`. -/
theorem C1_counterexample :
    Reach mockCfg 0
      (⟨ainsert UMAX32 ⟨5, [65], 0, 100, false⟩ satState.proposals,
        [((UMAX32, 7), true)], satAdd32 UMAX32 1,
        ainsert UMAX32 VoteTally.zero
          (amodify UMAX32 (bumpTally true) satState.voteTallies)⟩ : GovState) ∧
    alookup UMAX32 (ainsert UMAX32 VoteTally.zero
        (amodify UMAX32 (bumpTally true) satState.voteTallies)) =
      some VoteTally.zero ∧
    voterCount UMAX32 [((UMAX32, 7), true)] = 1 ∧
    ([((UMAX32, 7), true)].map Prod.fst).Nodup ∧
    VoteTally.zero.for_votes + VoteTally.zero.against_votes ≠ 1 := by
  obtain ⟨hp, ht, hv, hn⟩ := satState_fields
  obtain ⟨h1, h2, h3⟩ := c1_chain satState hp ht hv hn
  refine ⟨?_, h3, by decide, by decide, by decide⟩
  exact Reach.propose_step
    (Reach.vote_step (proposeN_reach (UMAX32 + 1)) (Nat.le_refl 0) h1)
    (Nat.le_refl 0) h2

/-- C1 (amended): in every reachable state whose id counter has not
saturated, for every proposal id in the tally store on which at most
`2^32 - 1` voters have voted, `for_votes + against_votes` equals the
number of Vote Ledger entries on that proposal, and those entries carry
pairwise-distinct voter identities — so the sum counts exactly the
distinct voters.  (`propose` initializes the tally to `(0,0)` with no
votes and each accepted vote adds one entry and bumps one counter: this
is the `Inv`-preservation argument behind `reach_inv`.) -/
theorem C1_tally_counts_voters {cfg : GovConfig} {n : Nat} {s : GovState}
    (hr : Reach cfg n s) (hsat : s.nextProposalId < UMAX32)
    (pid : Nat) (t : VoteTally)
    (ht : alookup pid s.voteTallies = some t)
    (hcnt : voterCount pid s.votes ≤ UMAX32) :
    t.for_votes + t.against_votes = voterCount pid s.votes ∧
    ((s.votes.filter fun e => decide (e.1.1 = pid)).map fun e => e.1.2).Nodup := by
  obtain ⟨-, -, -, i4, -, i6⟩ := reach_inv hr hsat
  obtain ⟨hf, ha⟩ := i6 pid t ht
  have hsplit := voterCount_split pid s.votes
  refine ⟨?_, nodup_voters pid s.votes i4⟩
  rw [hf, ha]
  omega

/-- C1's amended statement applied to a two-step mock run (one proposal,
one vote): tally `(1, 0)` and exactly one distinct voter. -/
theorem C1_tally_counts_voters_witness :
    (1 : Nat) + 0 = voterCount 0 [((0, 7), true)] ∧
    (([((0, 7), true)].filter
        fun e => decide ((e : (Nat × Nat) × Bool).1.1 = 0)).map
      fun e => e.1.2).Nodup := by
  have h1 : propose mockCfg 0 5 [65] initState =
      (⟨[(0, ⟨5, [65], 0, 100, false⟩)], [], 1, [(0, ⟨0, 0⟩)]⟩, none,
       [GovEvent.ProposalCreated 0 5 [65] 100]) := by decide
  have h2 : vote mockCfg 1 7 0 true
      ⟨[(0, ⟨5, [65], 0, 100, false⟩)], [], 1, [(0, ⟨0, 0⟩)]⟩ =
      (⟨[(0, ⟨5, [65], 0, 100, false⟩)], [((0, 7), true)], 1, [(0, ⟨1, 0⟩)]⟩,
       none, [GovEvent.Voted 0 7 true]) := by decide
  have hreach := Reach.vote_step
    (Reach.propose_step Reach.init (Nat.le_refl 0) h1) (by omega) h2
  exact C1_tally_counts_voters hreach (by decide) 0 ⟨1, 0⟩ rfl (by decide)

/-! ## Claim C9: `is_closed` monotonicity and close/sweep frame -/

/-- One successful state change at block height `m`: any of the three
calls, or the sweep. -/
inductive GovStep (cfg : GovConfig) (m : Nat) : GovState → GovState → Prop where
  | propose_call {who : Nat} {d : List Nat} {s s' : GovState}
      {evs : List GovEvent} :
      propose cfg m who d s = (s', none, evs) → GovStep cfg m s s'
  | vote_call {who pid : Nat} {c : Bool} {s s' : GovState}
      {evs : List GovEvent} :
      vote cfg m who pid c s = (s', none, evs) → GovStep cfg m s s'
  | close_call {who pid : Nat} {s s' : GovState} {evs : List GovEvent} :
      close_proposal cfg m who pid s = (s', none, evs) → GovStep cfg m s s'
  | sweep_hook {s s' : GovState} {evs : List GovEvent} :
      onInitHook cfg m s = (s', evs) → GovStep cfg m s s'

/-- C9 (amended): every proposal record created by `propose` (or by
genesis seeding) is stored with `is_closed = false` — proposals start
open; a successful `close` rewrites only the target proposal's record,
setting `is_closed := true` and leaving proposer, description and both
block fields as they were, leaves every other proposal untouched and
writes neither the Vote Ledger, the Tally Aggregator nor the counter;
the sweep likewise; and from any reachable state whose id counter has
not saturated, no operation ever resets `is_closed` to false.  (Without
the saturation proviso a `propose` at the stuck counter overwrites
closed proposal `2^32 - 1` with a fresh open record —
`C9_counterexample`.) -/
theorem C9_closed_frame_monotone (cfg : GovConfig) (blk who pid n : Nat)
    (s : GovState) :
    (∀ p s' evs, alookup pid s.proposals = some p →
      close_proposal cfg blk who pid s = (s', none, evs) →
      s'.proposals = ainsert pid { p with is_closed := true } s.proposals ∧
      alookup pid s'.proposals = some { p with is_closed := true } ∧
      (∀ q, q ≠ pid → alookup q s'.proposals = alookup q s.proposals) ∧
      s'.votes = s.votes ∧ s'.voteTallies = s.voteTallies ∧
      s'.nextProposalId = s.nextProposalId) ∧
    ((onInitHook cfg n s).1.votes = s.votes ∧
      (onInitHook cfg n s).1.voteTallies = s.voteTallies ∧
      (onInitHook cfg n s).1.nextProposalId = s.nextProposalId ∧
      (∀ q, alookup q (onInitHook cfg n s).1.proposals = alookup q s.proposals ∨
        ∃ p, alookup q s.proposals = some p ∧ p.is_closed = false ∧
          alookup q (onInitHook cfg n s).1.proposals =
            some { p with is_closed := true })) ∧
    (∀ blk2 who2 d s' evs, propose cfg blk2 who2 d s = (s', none, evs) →
      alookup s.nextProposalId s'.proposals =
        some ⟨who2, d, blk2, satAdd64 blk2 cfg.defaultVotingPeriod, false⟩) ∧
    (∀ (g : GovState) gevs item g' gevs',
      seedOne cfg (some (g, gevs)) item = some (g', gevs') →
      alookup g.nextProposalId g'.proposals =
        some ⟨item.1, item.2, 0, satAdd64 0 cfg.defaultVotingPeriod, false⟩) ∧
    (∀ {n0 : Nat}, Reach cfg n0 s → s.nextProposalId < UMAX32 →
      ∀ {m : Nat} {s' : GovState}, GovStep cfg m s s' →
      ∀ q p, alookup q s.proposals = some p → p.is_closed = true →
        ∃ p', alookup q s'.proposals = some p' ∧ p'.is_closed = true) := by
  refine ⟨?_, ?_, ?_, ?_, ?_⟩
  · intro p s' evs hp hc
    obtain ⟨p2, hp2, hopen2, -, hseq, -⟩ := close_success_eq hc
    rw [hp] at hp2
    have hpp := Option.some.inj hp2
    subst hpp
    subst hseq
    refine ⟨rfl, alookup_ainsert_self _ _ _, ?_, rfl, rfl, rfl⟩
    intro q hq
    exact alookup_ainsert_ne _ _ hq
  · refine ⟨rfl, rfl, rfl, ?_⟩
    intro q
    rcases sweepList_lookup cfg n s.voteTallies s.proposals 0 q with
      heq | ⟨p, hp1, hp2, -, hp4, -⟩
    · exact Or.inl heq
    · exact Or.inr ⟨p, hp1, hp2, hp4⟩
  · intro blk2 who2 d s' evs h
    obtain ⟨hseq, -⟩ := propose_success_eq h
    subst hseq
    exact alookup_ainsert_self _ _ _
  · intro g gevs item g' gevs' h
    have h2 := seedOne_as_propose cfg g gevs item g' gevs' h
    obtain ⟨hseq, -⟩ := propose_success_eq h2
    subst hseq
    exact alookup_ainsert_self _ _ _
  · intro n0 hr hsat m s' hstep q p hq hclosed
    obtain ⟨i1, -, -, -, -, -⟩ := reach_inv hr hsat
    cases hstep with
    | propose_call heq =>
      obtain ⟨hseq, -⟩ := propose_success_eq heq
      subst hseq
      have hqlt := i1 q p hq
      refine ⟨p, ?_, hclosed⟩
      dsimp only
      rw [alookup_ainsert_ne _ _ (by omega)]
      exact hq
    | vote_call heq =>
      obtain ⟨p2, -, -, -, -, hseq, -⟩ := vote_success_eq heq
      subst hseq
      exact ⟨p, hq, hclosed⟩
    | close_call heq =>
      rename_i who2 pid2 evs2
      obtain ⟨p2, hp2, hopen2, -, hseq, -⟩ := close_success_eq heq
      subst hseq
      by_cases hk : q = pid2
      · subst hk
        rw [hq] at hp2
        have hpp := Option.some.inj hp2
        rw [← hpp, hclosed] at hopen2
        exact absurd hopen2 (by simp)
      · refine ⟨p, ?_, hclosed⟩
        dsimp only
        rw [alookup_ainsert_ne _ _ hk]
        exact hq
    | sweep_hook heq =>
      have hseq : s' = (onInitHook cfg m s).1 := by rw [heq]
      subst hseq
      dsimp only [onInitHook]
      rcases sweepList_lookup cfg m s.voteTallies s.proposals 0 q with
        heq2 | ⟨p2, hp2, hopen2, -, -, -⟩
      · refine ⟨p, ?_, hclosed⟩
        rw [heq2]
        exact hq
      · rw [hq] at hp2
        have hpp := Option.some.inj hp2
        rw [← hpp, hclosed] at hopen2
        exact absurd hopen2 (by simp)

/-- C9 applied concretely: closing proposal 0 in a one-proposal mock
state flips only `is_closed`, the first `propose` of the mock runtime
stores proposal 0 with `is_closed = false`, and a later `propose` step
from the (reachable) closed state leaves proposal 0 closed. -/
theorem C9_closed_frame_monotone_witness :
    (close_proposal mockCfg 101 9 0
        ⟨[(0, ⟨5, [65], 0, 100, false⟩)], [], 1, [(0, ⟨0, 0⟩)]⟩).1.proposals =
      ainsert 0 ⟨5, [65], 0, 100, true⟩ [(0, ⟨5, [65], 0, 100, false⟩)] ∧
    alookup 0 (propose mockCfg 0 5 [65] initState).1.proposals =
      some ⟨5, [65], 0, 100, false⟩ ∧
    (⟨5, [65], 0, 100, true⟩ : ProposalInfo).is_closed = true := by
  have hfr := (C9_closed_frame_monotone mockCfg 101 9 0 101
    ⟨[(0, ⟨5, [65], 0, 100, false⟩)], [], 1, [(0, ⟨0, 0⟩)]⟩).1
    ⟨5, [65], 0, 100, false⟩
    (close_proposal mockCfg 101 9 0
      ⟨[(0, ⟨5, [65], 0, 100, false⟩)], [], 1, [(0, ⟨0, 0⟩)]⟩).1
    (close_proposal mockCfg 101 9 0
      ⟨[(0, ⟨5, [65], 0, 100, false⟩)], [], 1, [(0, ⟨0, 0⟩)]⟩).2.2
    rfl (by decide)
  refine ⟨hfr.1, ?_, ?_⟩
  · exact (C9_closed_frame_monotone mockCfg 0 5 0 0 initState).2.2.1
      0 5 [65] (propose mockCfg 0 5 [65] initState).1
      (propose mockCfg 0 5 [65] initState).2.2 (by decide)
  have h1 : propose mockCfg 0 5 [65] initState =
      (⟨[(0, ⟨5, [65], 0, 100, false⟩)], [], 1, [(0, ⟨0, 0⟩)]⟩, none,
       [GovEvent.ProposalCreated 0 5 [65] 100]) := by decide
  have h2 : close_proposal mockCfg 101 9 0
      ⟨[(0, ⟨5, [65], 0, 100, false⟩)], [], 1, [(0, ⟨0, 0⟩)]⟩ =
      (⟨[(0, ⟨5, [65], 0, 100, true⟩)], [], 1, [(0, ⟨0, 0⟩)]⟩, none,
       [GovEvent.ProposalClosed 0 0 0]) := by decide
  have h3 : propose mockCfg 101 6 [66]
      ⟨[(0, ⟨5, [65], 0, 100, true⟩)], [], 1, [(0, ⟨0, 0⟩)]⟩ =
      (⟨[(0, ⟨5, [65], 0, 100, true⟩), (1, ⟨6, [66], 101, 201, false⟩)], [],
        2, [(0, ⟨0, 0⟩), (1, ⟨0, 0⟩)]⟩, none,
       [GovEvent.ProposalCreated 1 6 [66] 201]) := by decide
  have hreach := Reach.close_step
    (Reach.propose_step Reach.init (Nat.le_refl 0) h1) (by omega) h2
  have hmono := (C9_closed_frame_monotone mockCfg 0 0 0 0
    ⟨[(0, ⟨5, [65], 0, 100, true⟩)], [], 1, [(0, ⟨0, 0⟩)]⟩).2.2.2.2 hreach
    (by decide) (GovStep.propose_call h3) 0 ⟨5, [65], 0, 100, true⟩ rfl rfl
  obtain ⟨p', hp', hcl⟩ := hmono
  have hx : alookup 0
      (⟨[(0, ⟨5, [65], 0, 100, true⟩), (1, ⟨6, [66], 101, 201, false⟩)], [],
        2, [(0, ⟨0, 0⟩), (1, ⟨0, 0⟩)]⟩ : GovState).proposals =
      some ⟨5, [65], 0, 100, true⟩ := by decide
  have hpp : p' = ⟨5, [65], 0, 100, true⟩ :=
    Option.some.inj (hp'.symm.trans hx)
  exact hpp ▸ hcl

/-- The two steps of the C9 counterexample over an arbitrary state with
`satState`'s properties: closing proposal `2^32 - 1` succeeds (at block
101 > its `end_block` 100), and a further `propose` at the saturated
counter overwrites it with a fresh *open* record — `is_closed` reverts
from `true` to `false`. -/
theorem c9_chain (s : GovState)
    (hp : alookup UMAX32 s.proposals = some ⟨5, [65], 0, 100, false⟩)
    (ht : alookup UMAX32 s.voteTallies = some VoteTally.zero)
    (hn : s.nextProposalId = UMAX32) :
    close_proposal mockCfg 101 9 UMAX32 s =
      (⟨ainsert UMAX32 ⟨5, [65], 0, 100, true⟩ s.proposals, s.votes,
        s.nextProposalId, s.voteTallies⟩, none,
       [GovEvent.ProposalClosed UMAX32 0 0]) ∧
    propose mockCfg 101 5 [65]
      (⟨ainsert UMAX32 ⟨5, [65], 0, 100, true⟩ s.proposals, s.votes,
        s.nextProposalId, s.voteTallies⟩ : GovState) =
      (⟨ainsert UMAX32 ⟨5, [65], 101, 201, false⟩
          (ainsert UMAX32 ⟨5, [65], 0, 100, true⟩ s.proposals), s.votes,
        satAdd32 UMAX32 1, ainsert UMAX32 VoteTally.zero s.voteTallies⟩, none,
       [GovEvent.ProposalCreated UMAX32 5 [65] 201]) ∧
    alookup UMAX32 (ainsert UMAX32 ⟨5, [65], 0, 100, true⟩ s.proposals) =
      some ⟨5, [65], 0, 100, true⟩ ∧
    alookup UMAX32 (ainsert UMAX32 ⟨5, [65], 101, 201, false⟩
        (ainsert UMAX32 ⟨5, [65], 0, 100, true⟩ s.proposals)) =
      some ⟨5, [65], 101, 201, false⟩ := by
  have h64 : satAdd64 101 100 = 201 := by decide
  refine ⟨?_, ?_, alookup_ainsert_self _ _ _, alookup_ainsert_self _ _ _⟩
  · simp [close_proposal, hp, ht, VoteTally.zero]
  · rw [mock_propose_ok]
    dsimp only
    rw [hn, h64]

/-- C9 fails at saturation: the closed proposal `2^32 - 1` of this
reachable state is overwritten by the next `propose` (the saturated
counter re-assigns its id), and its `is_closed` flag reverts from `true`
to `false`. -/
theorem C9_counterexample :
    Reach mockCfg 101
      (⟨ainsert UMAX32 ⟨5, [65], 0, 100, true⟩ satState.proposals,
        satState.votes, satState.nextProposalId, satState.voteTallies⟩ :
        GovState) ∧
    alookup UMAX32 (ainsert UMAX32 ⟨5, [65], 0, 100, true⟩
        satState.proposals) = some ⟨5, [65], 0, 100, true⟩ ∧
    (⟨5, [65], 0, 100, true⟩ : ProposalInfo).is_closed = true ∧
    propose mockCfg 101 5 [65]
      (⟨ainsert UMAX32 ⟨5, [65], 0, 100, true⟩ satState.proposals,
        satState.votes, satState.nextProposalId, satState.voteTallies⟩ :
        GovState) =
      (⟨ainsert UMAX32 ⟨5, [65], 101, 201, false⟩
          (ainsert UMAX32 ⟨5, [65], 0, 100, true⟩ satState.proposals),
        satState.votes, satAdd32 UMAX32 1,
        ainsert UMAX32 VoteTally.zero satState.voteTallies⟩, none,
       [GovEvent.ProposalCreated UMAX32 5 [65] 201]) ∧
    alookup UMAX32 (ainsert UMAX32 ⟨5, [65], 101, 201, false⟩
        (ainsert UMAX32 ⟨5, [65], 0, 100, true⟩ satState.proposals)) =
      some ⟨5, [65], 101, 201, false⟩ ∧
    (⟨5, [65], 101, 201, false⟩ : ProposalInfo).is_closed = false := by
  obtain ⟨hp, ht, -, hn⟩ := satState_fields
  obtain ⟨h1, h2, h3, h4⟩ := c9_chain satState hp ht hn
  exact ⟨Reach.close_step (proposeN_reach (UMAX32 + 1)) (Nat.zero_le 101) h1,
    h3, rfl, h2, h4, rfl⟩

end SimpleGov
